import Mathlib

/-!
Shallow embedding of the TripAdvisor scraper pipeline's verifiable core:
the SQLite work-queue store (`db.py`), the paginated URL generator
(`2_create_links_in_db.py`), and the per-URL fetch/classify/remove logic of
the fetch orchestrator (`3_scrape_city_restaurant_urls.py`).
-/

/-- A row of the `city_restaurant_links` table (`db.py`, `init_database`):
`geoname_id INTEGER, url TEXT UNIQUE, status TEXT`. -/
structure Row where
  geoname_id : Int
  url : String
  status : String
deriving DecidableEq

/-- Classes of sqlite3 exceptions relevant to `db.py`: `IntegrityError`
(UNIQUE-constraint violation), `OperationalError: database is locked`
(resource busy), and any other storage error. -/
inductive DbErr where
  | integrity
  | busy
  | other
deriving DecidableEq

/-- The bare `INSERT INTO city_restaurant_links` statement: sqlite raises
`IntegrityError` when a row with the same `url` already exists (the column is
declared `UNIQUE`), otherwise the row is appended. -/
def sqlInsert (db : List Row) (g : Int) (u s : String) : Except DbErr (List Row) :=
  if db.any (fun r => r.url == u) then .error .integrity
  else .ok (db ++ [⟨g, u, s⟩])

/-- One storage attempt with fault injection: `fault = some e` models an
internal storage error (locked database, I/O failure, ...) raised by the
sqlite driver instead of performing the insert. -/
def insertAttempt (fault : Option DbErr) (db : List Row) (g : Int) (u s : String) :
    Except DbErr (List Row) :=
  match fault with
  | some e => .error e
  | none => sqlInsert db g u s

/-- `db.py` `add_city_restaurant`: runs the INSERT inside `try`, catches
`sqlite3.IntegrityError` and every other `Exception`, and returns `False` in
both cases; returns `True` after a successful commit. Result is the new table
contents paired with the returned boolean. -/
def add_city_restaurant (fault : Option DbErr) (db : List Row) (g : Int) (u s : String) :
    List Row × Bool :=
  match insertAttempt fault db g u s with
  | .ok db' => (db', true)
  | .error _ => (db, false)

/-- `add_city_restaurant` instrumented with a busy oracle: `busy k` tells
whether the k-th execute attempt would hit `database is locked`. The Python
code performs exactly one execute (no retry loop anywhere in `db.py`); a busy
condition surfaces as an exception, is caught by `except Exception`, and
`False` is returned. The second component counts execute attempts made. -/
def add_city_restaurant_run (busy : Nat → Bool) (db : List Row) (g : Int) (u s : String) :
    (List Row × Bool) × Nat :=
  if busy 0 then ((db, false), 1)
  else (add_city_restaurant none db g u s, 1)

/-- Modelled from the spec (§4.1 Concurrency/failure policy): the claimed
writer behavior on a resource-busy condition — retry with exponential backoff
starting at 100ms and doubling, capped at 5 attempts, then abandon and report
failure. `k` is the current attempt index, `delay` the next backoff in ms,
and the returned list records the delays slept. This definition exists only
to be compared against the code's actual writer. -/
def addRetrySpecGo (busy : Nat → Bool) (db : List Row) (g : Int) (u s : String) :
    Nat → Nat → Nat → (List Row × Bool) × List Nat
  | 0, _, _ => ((db, false), [])
  | fuel + 1, k, delay =>
    if busy k then
      let rest := addRetrySpecGo busy db g u s fuel (k + 1) (delay * 2)
      (rest.1, delay :: rest.2)
    else (add_city_restaurant none db g u s, [])

/-- Modelled from the spec (§4.1): the claimed 5-attempt, 100ms-doubling
retrying writer. -/
def addRetrySpec (busy : Nat → Bool) (db : List Row) (g : Int) (u s : String) :
    (List Row × Bool) × List Nat :=
  addRetrySpecGo busy db g u s 5 0 100

/-- `db.py` `update_city_restaurant`: returns `False` immediately when neither
`geoname_id` nor `status` is supplied; otherwise runs a dynamic UPDATE by
`url`, returns `False` (without commit) when `cursor.rowcount == 0`, `True`
after commit; any exception is caught and yields `False`. -/
def update_city_restaurant (fault : Option DbErr) (db : List Row) (u : String)
    (g? : Option Int) (s? : Option String) : List Row × Bool :=
  if g?.isNone && s?.isNone then (db, false)
  else
    match fault with
    | some _ => (db, false)
    | none =>
      let rowcount := db.countP (fun r => r.url == u)
      if rowcount == 0 then (db, false)
      else
        (db.map (fun r =>
          if r.url == u then
            { r with geoname_id := g?.getD r.geoname_id, status := s?.getD r.status }
          else r), true)

/-- `db.py` `remove_city_restaurant_url`: `DELETE FROM city_restaurant_links
WHERE url = ?`, returns `rows_affected > 0`; any exception is caught and
yields `False` with the table untouched. -/
def remove_city_restaurant_url (fault : Option DbErr) (db : List Row) (u : String) :
    List Row × Bool :=
  match fault with
  | some _ => (db, false)
  | none =>
    let affected := db.countP (fun r => r.url == u)
    (db.filter (fun r => !(r.url == u)), decide (affected > 0))

/-- The `ORDER BY geoname_id, url` ordering of the SELECT in
`get_city_restaurant_urls_with_status`. -/
def rowLe (a b : Row) : Prop :=
  a.geoname_id < b.geoname_id ∨ (a.geoname_id = b.geoname_id ∧ a.url ≤ b.url)

instance (a b : Row) : Decidable (rowLe a b) := by
  unfold rowLe; infer_instance

/-- Insertion into a list sorted by `rowLe`; together with `sortRows` this
models the deterministic `ORDER BY geoname_id, url` of the SQL query. -/
def insertRow (r : Row) : List Row → List Row
  | [] => [r]
  | x :: xs => if rowLe r x then r :: x :: xs else x :: insertRow r xs

/-- Sorting by `(geoname_id, url)`, the SQL `ORDER BY` of the listing query. -/
def sortRows (l : List Row) : List Row :=
  l.foldr insertRow []

/-- One step of the Python grouping loop
`if geoname_id not in result: result[geoname_id] = []` followed by
`result[geoname_id].append((url, url_status))`, on an insertion-ordered
association list modelling the Python dict. -/
def addRow : List (Int × List (String × String)) → Row → List (Int × List (String × String))
  | [], r => [(r.geoname_id, [(r.url, r.status)])]
  | (g, l) :: rest, r =>
    if g = r.geoname_id then (g, l ++ [(r.url, r.status)]) :: rest
    else (g, l) :: addRow rest r

/-- The grouping loop of `get_city_restaurant_urls_with_status` over the
fetched rows. -/
def groupRows (rows : List Row) : List (Int × List (String × String)) :=
  rows.foldl addRow []

/-- Python truthiness of the `status` argument: `if status:` drops the status
filter when `status` is `None` or the empty string. -/
def activeStatus : Option String → Option String
  | none => none
  | some s => if s == "" then none else some s

/-- The WHERE clause of the listing query: `geoname_id IN (...)` plus the
optional `AND status = ?`. -/
def rowPred (ids : List Int) (active : Option String) (r : Row) : Bool :=
  ids.contains r.geoname_id &&
    match active with
    | some s => r.status == s
    | none => true

/-- `db.py` `get_city_restaurant_urls_with_status`: returns `{}` for an empty
id list, `{}` on any storage exception, otherwise the rows matching the WHERE
clause, ordered by `(geoname_id, url)` and grouped into a dict keyed by
`geoname_id` with `(url, status)` values. -/
def get_city_restaurant_urls_with_status (fault : Option DbErr) (db : List Row)
    (ids : List Int) (status : Option String) : List (Int × List (String × String)) :=
  if ids.isEmpty then []
  else
    match fault with
    | some _ => []
    | none => groupRows (sortRows (db.filter (rowPred ids (activeStatus status))))

/-- Flattens the grouped mapping back into `(geoname_id, url, status)` triples,
used to state that the mapping contains exactly the matching rows. -/
def ungroup (m : List (Int × List (String × String))) : List (Int × String × String) :=
  m.flatMap (fun p => p.2.map (fun q => (p.1, q.1, q.2)))

/-- First-match lookup in the grouped mapping (a Python dict has unique keys,
so the first match is the only one). -/
def groupFind (m : List (Int × List (String × String))) (g : Int) : List (String × String) :=
  match m.find? (fun p => p.1 == g) with
  | some p => p.2
  | none => []

/-- The triple view of a row. -/
def rowTriple (r : Row) : Int × String × String :=
  (r.geoname_id, r.url, r.status)

/-- The fixed query-string part of the listing URL built by
`generate_restaurant_urls` in `2_create_links_in_db.py`. -/
def baseUrlTail : String :=
  "&establishmentTypes=10591,11776,12208,16548,16556,9900,9901,9909,21908&minimumTravelerRating=TRAVELER_RATING_LOW&broadened=false"

/-- The `base_url` f-string of `generate_restaurant_urls` for a given
TripAdvisor geo id. -/
def baseUrl (g : Int) : String :=
  "https://www.tripadvisor.com/FindRestaurants?geo=" ++ toString g ++ baseUrlTail

/-- `2_create_links_in_db.py` `generate_restaurant_urls`: returns `[]` when
the geo id is falsy (absent or `0`) or the result count is `<= 0`; otherwise
computes `pages = results // 30 + (1 if results % 30 > 0 else 0)`, emits the
base URL with `&offset=0` first and then `&offset=i*30` for `i` in
`range(1, pages)`. -/
def generate_restaurant_urls (geoId : Option Int) (results : Int) : List String :=
  let falsy := match geoId with
    | none => true
    | some g => g == 0
  if falsy || decide (results ≤ 0) then []
  else
    let g := geoId.getD 0
    let res := results.toNat
    let pages := res / 30 + (if res % 30 > 0 then 1 else 0)
    (baseUrl g ++ "&offset=0") ::
      (List.range (pages - 1)).map (fun i => baseUrl g ++ "&offset=" ++ toString ((i + 1) * 30))

/-- Whether the character list `s` starts with the character list `sep`. -/
def listStartsWith : List Char → List Char → Bool
  | [], _ => true
  | _ :: _, [] => false
  | a :: as, b :: bs => a == b && listStartsWith as bs

/-- Python `str.split(sep)` on character lists for a non-empty separator
(leftmost, non-overlapping), with explicit fuel so that it reduces in the
kernel; `fuel` is instantiated with the length of the input. -/
def splitOnCharsFuel (sep : List Char) : Nat → List Char → List (List Char)
  | _, [] => [[]]
  | 0, s => [s]
  | fuel + 1, c :: rest =>
    if listStartsWith sep (c :: rest) then
      [] :: splitOnCharsFuel sep fuel (rest.drop (sep.length - 1))
    else
      match splitOnCharsFuel sep fuel rest with
      | [] => [[c]]
      | h :: t => (c :: h) :: t

/-- Python `s.split(sep)` for strings (non-empty `sep`). -/
def splitOnStr (sep s : String) : List String :=
  (splitOnCharsFuel sep.toList s.toList.length s.toList).map String.mk

/-- Python `sep in s` (substring containment), expressed through the split:
a non-empty separator occurs iff the split has at least two parts. This is
exactly the check the orchestrator performs before indexing into the split. -/
def containsSub (sep s : String) : Bool :=
  (splitOnStr sep s).length ≥ 2

/-- Whether a generated URL carries an offset query parameter, in the sense
the orchestrator tests it (`"offset=" in url`,
`3_scrape_city_restaurant_urls.py` line 429). -/
def hasOffsetParam (u : String) : Bool :=
  containsSub "offset=" u

/-- One element of a JSON-LD `itemListElement` list as the orchestrator
inspects it: whether a nested `"item"` dict is present (and the `url` it
carries, `""` when absent), whether top-level `"name"`/`"url"` keys are
present (with the top-level url value), and whether the Record Sink call
(`add_restaurant_basic_info`) would report success for this item. -/
structure ListItem where
  hasItemDict : Bool
  itemUrl : String
  hasName : Bool
  hasUrl : Bool
  topUrl : String
  sinkOk : Bool
deriving DecidableEq

/-- The response envelope `response[0]` returned by the scraping collaborator,
as far as `process_single_url` inspects it: the `error` field, the JSON-LD
scripts carrying `itemListOrder`/`itemListElement` (`none` when `json_data`
or `other_scripts` is absent), the sizes of `content` and `str(json_data)`,
whether `detect_captcha` fires on it, and the optional `status` field. -/
structure Resp where
  err : Bool
  otherScripts : Option (List (List ListItem))
  contentLen : Nat
  jsonLen : Nat
  captcha : Bool
  status : Option Int
deriving DecidableEq

/-- Outcome of one `client.request_spider_api` call: an exception raised
(network failure / non-200 from the SaaS, `spider_cloud.py` raises), a falsy
or empty response, or a response envelope. -/
inductive FetchOut where
  | exn
  | noResp
  | resp (p : Resp)
deriving DecidableEq

/-- `detect_captcha` (`3_scrape_city_restaurant_urls.py`): a predicate on the
response content/title, carried as a field of the envelope model. -/
def detect_captcha (p : Resp) : Bool :=
  p.captcha

/-- `validate_response_size` with the default 10KB floor:
`len(content) + len(str(json_data)) >= 10 * 1024`. -/
def validate_response_size (p : Resp) : Bool :=
  decide (10 * 1024 ≤ p.contentLen + p.jsonLen)

/-- The mutable `result` dict of `process_single_url`, restricted to the
fields that drive control flow and the queue decision, plus a log of the
items actually forwarded to the Record Sink. -/
structure St where
  succ : Nat
  fail : Nat
  found : Bool
  shouldRemove : Bool
  captcha : Bool
  tooSmall : Bool
  errMsg : Option String
  sent : List ListItem
deriving DecidableEq

/-- The initial `result` dict of `process_single_url`. -/
def initSt : St :=
  ⟨0, 0, false, false, false, false, none, []⟩

/-- The `restaurant_url` extracted from a list item: the nested item's `url`
when an `"item"` dict is present, else the top-level `url` when present,
else `""`. -/
def restaurantUrl (it : ListItem) : String :=
  if it.hasItemDict then it.itemUrl
  else if it.hasUrl then it.topUrl
  else ""

/-- `restaurant_url.split("-g")[1].split("-")[0]`, the geo id parsed out of a
restaurant URL (meaningful only under the `"-g" in restaurant_url` guard). -/
def geoPart (u : String) : String :=
  (splitOnStr "-" ((splitOnStr "-g" u).getD 1 "")).headD ""

/-- The skip condition of the item loop: location validation is active
(non-empty allow-list), the restaurant URL is non-empty and contains `-g`,
and the parsed geo id is not in the allow-list. -/
def skipItem (expected : List String) (it : ListItem) : Bool :=
  let ru := restaurantUrl it
  !expected.isEmpty && (!(ru == "") && containsSub "-g" ru) && !expected.contains (geoPart ru)

/-- Forwarding one item to the Record Sink (`add_restaurant_basic_info`) and
counting the outcome. -/
def forwardItem (it : ListItem) (st : St) : St :=
  { st with sent := st.sent ++ [it],
            succ := if it.sinkOk then st.succ + 1 else st.succ,
            fail := if it.sinkOk then st.fail else st.fail + 1 }

/-- Processing of one list item inside `process_single_url`: skip it when
location validation is active and the parsed geo id does not match the
allow-list; otherwise forward it to the Record Sink (full or minimal form)
and count success/failure; items with neither form are ignored. -/
def processItem (expected : List String) (it : ListItem) (st : St) : St :=
  if skipItem expected it then st
  else if it.hasItemDict then forwardItem it st
  else if it.hasName && it.hasUrl then forwardItem it st
  else st

/-- The `for list_item in item_list` loop. -/
def processItems (expected : List String) (l : List ListItem) (st : St) : St :=
  l.foldl (fun st it => processItem expected it st) st

/-- Handling of one script carrying `itemListOrder`: when its
`itemListElement` list is non-empty, mark `restaurants_found`, reset
`should_remove_url`, and process every item. -/
def processScript (expected : List String) (script : List ListItem) (st : St) : St :=
  if script.isEmpty then st
  else processItems expected script { st with found := true, shouldRemove := false }

/-- The `for script in json_data["other_scripts"]` loop (scripts without
`itemListOrder` contribute nothing and are dropped from the model). -/
def processScripts (expected : List String) (scripts : List (List ListItem)) (st : St) : St :=
  scripts.foldl (fun st sc => processScript expected sc st) st

/-- Outcome of one iteration of the retry loop body: the client call raised,
the loop was left via `break`, or control returned to the loop head (both
`continue` and falling off the end of the body). -/
inductive BodyOut where
  | raised
  | halt (st : St) (last : FetchOut)
  | step (st : St) (last : FetchOut)

/-- The `if "status" in response[0]` tail of the validation block: a 429
status breaks out of the loop with a rate-limit error; any other status (or
an absent field) returns to the loop head. -/
def statusCheck (p : Resp) (st : St) (fo : FetchOut) : BodyOut :=
  match p.status with
  | some code =>
    if code == 429 then .halt { st with errMsg := some "Rate limited (429)" } fo
    else .step st fo
  | none => .step st fo

/-- One iteration of the `while retry_count < max_retries and not
restaurants_found` body of `process_single_url`, at attempt number `k`
(`retry_count` after its increment): fetch, process any items, then — when
nothing was found — check captcha (break), undersized response (continue
before the last attempt, else record the error), and status code. -/
def body (expected : List String) (k : Nat) (fo : FetchOut) (st : St) : BodyOut :=
  match fo with
  | .exn => .raised
  | .noResp => .step st fo
  | .resp p =>
    if p.err then .step st fo
    else
      let st1 := processScripts expected (p.otherScripts.getD []) st
      if st1.found then .step st1 fo
      else if detect_captcha p then
        .halt { st1 with captcha := true, errMsg := some "CAPTCHA detected" } fo
      else if !validate_response_size p then
        if k < 3 then .step { st1 with tooSmall := true } fo
        else statusCheck p { st1 with tooSmall := true, errMsg := some "Response too small" } fo
      else statusCheck p st1 fo

/-- Aggregate outcome of the retry loop: the `result` state, the last value
of the `response` variable, whether an exception escaped the loop, the number
of client calls made, and the `time.sleep` delays performed. -/
structure LoopOut where
  st : St
  last : Option FetchOut
  raised : Bool
  attempts : Nat
  sleeps : List Nat
deriving DecidableEq

/-- The retry loop of `process_single_url`: at most `fuel` further attempts
(`max_retries = 3` from the start), `k` attempts already made; before every
attempt after the first, `time.sleep(2 * (retry_count - 1))`. -/
def runLoop (fetch : Nat → FetchOut) (expected : List String) :
    Nat → Nat → St → Option FetchOut → LoopOut
  | 0, _, st, last => ⟨st, last, false, 0, []⟩
  | fuel + 1, k, st, last =>
    if st.found then ⟨st, last, false, 0, []⟩
    else
      let a := k + 1
      let sl : List Nat := if a > 1 then [2 * (a - 1)] else []
      match body expected a (fetch a) st with
      | .raised => ⟨st, last, true, 1, sl⟩
      | .halt st' fo => ⟨st', some fo, false, 1, sl⟩
      | .step st' fo =>
        let rest := runLoop fetch expected fuel a st' (some fo)
        ⟨rest.st, rest.last, rest.raised, 1 + rest.attempts, sl ++ rest.sleeps⟩

/-- The whole retry loop of `process_single_url` with its initial state. -/
def runUrl (fetch : Nat → FetchOut) (expected : List String) : LoopOut :=
  runLoop fetch expected 3 0 initSt none

/-- The post-loop classification of `process_single_url` (lines 537-562):
when nothing was found, remove the URL only for an exception-free, non-bot,
adequately sized, nominal-200 response whose JSON-LD structure is present but
empty; in every other case keep it. -/
def finalize (st : St) (last : Option FetchOut) : St :=
  if st.found then st
  else
    match last with
    | some (.resp p) =>
      if !p.err && !st.captcha && !st.tooSmall then
        if p.status.getD 200 == 200 && validate_response_size p then
          if p.otherScripts.isSome then { st with shouldRemove := true }
          else { st with shouldRemove := false }
        else { st with shouldRemove := false }
      else { st with shouldRemove := false }
    | _ => { st with shouldRemove := false }

/-- `process_single_url` end to end: run the retry loop; when an exception
escaped, the `except` branch records it and forces `should_remove_url` to
`False` (the final classification block is skipped); otherwise the final
classification runs. -/
def process_single_url (fetch : Nat → FetchOut) (expected : List String) : St :=
  let lo := runUrl fetch expected
  if lo.raised then { lo.st with shouldRemove := false, errMsg := some "exception" }
  else finalize lo.st lo.last

/-- The removal decision of the `__main__` batch loop (lines 770-782): a URL
is removed from the work queue iff restaurants were found with at least one
successful sink call, or the result was classified as a confirmed empty
page. -/
def urlRemoved (fetch : Nat → FetchOut) (expected : List String) : Bool :=
  let r := process_single_url fetch expected
  (r.found && decide (0 < r.succ)) || r.shouldRemove

/-- Whether at least one parsed record from the URL was successfully
forwarded to the Record Sink — clause (a) of the removal claim. -/
def forwardedSome (fetch : Nat → FetchOut) (expected : List String) : Bool :=
  decide (0 < (process_single_url fetch expected).succ)

/-- Clause (b) of the removal claim, stated in the spec's vocabulary over the
processing outcome: no exception, zero items found, no bot-challenge and no
undersized payload flagged, and the final response is a nominal 200 of
adequate size whose expected content markers are present. -/
def specConfirmedEmpty (fetch : Nat → FetchOut) (expected : List String) : Bool :=
  let lo := runUrl fetch expected
  !lo.raised && !lo.st.found && !lo.st.captcha && !lo.st.tooSmall &&
    match lo.last with
    | some (.resp p) =>
      !p.err && (p.status.getD 200 == 200) && validate_response_size p &&
        p.otherScripts.isSome
    | _ => false

/-- An attempt outcome that is a transient error surfaced in the response
envelope (empty/falsy response or an envelope whose `error` field is set) —
the errors the retry loop actually retries on. -/
def isEnvelopeError : FetchOut → Bool
  | .noResp => true
  | .resp p => p.err
  | .exn => false

/-- A list item whose nested `"item"` dict is present and whose Record Sink
call succeeds — a concrete fixture for the counterexamples. -/
def goodItem : ListItem :=
  ⟨true, "", false, false, "", true⟩

/-- A nominal response envelope containing one restaurant: no error field, a
JSON-LD script with one item, 20KB of content, no captcha, status 200. -/
def goodResp : Resp :=
  ⟨false, some [[goodItem]], 20 * 1024, 0, false, some 200⟩

/-- A fetch oracle whose first attempt raises a network failure and whose
later attempts would return the nominal one-restaurant response. -/
def exnThenGood : Nat → FetchOut :=
  fun k => if k == 1 then .exn else .resp goodResp

theorem rowLe_total (a b : Row) : rowLe a b ∨ rowLe b a := by
  unfold rowLe
  rcases lt_trichotomy a.geoname_id b.geoname_id with h | h | h
  · exact Or.inl (Or.inl h)
  · rcases le_total a.url b.url with hu | hu
    · exact Or.inl (Or.inr ⟨h, hu⟩)
    · exact Or.inr (Or.inr ⟨h.symm, hu⟩)
  · exact Or.inr (Or.inl h)

theorem rowLe_trans {a b c : Row} (h1 : rowLe a b) (h2 : rowLe b c) : rowLe a c := by
  unfold rowLe at *
  rcases h1 with h1 | ⟨h1, h1u⟩ <;> rcases h2 with h2 | ⟨h2, h2u⟩
  · exact Or.inl (h1.trans h2)
  · exact Or.inl (h2 ▸ h1)
  · exact Or.inl (h1 ▸ h2)
  · exact Or.inr ⟨h1.trans h2, h1u.trans h2u⟩

theorem insertRow_perm (r : Row) (l : List Row) : (insertRow r l).Perm (r :: l) := by
  induction l with
  | nil => exact List.Perm.refl _
  | cons x xs ih =>
    unfold insertRow
    by_cases h : rowLe r x
    · simp [h]
    · simp only [h, if_false]
      exact (ih.cons x).trans (List.Perm.swap r x xs)

theorem sortRows_perm (l : List Row) : (sortRows l).Perm l := by
  induction l with
  | nil => exact List.Perm.refl _
  | cons x xs ih =>
    have : sortRows (x :: xs) = insertRow x (sortRows xs) := rfl
    rw [this]
    exact (insertRow_perm x (sortRows xs)).trans (ih.cons x)

theorem mem_insertRow {y r : Row} {l : List Row} (h : y ∈ insertRow r l) :
    y = r ∨ y ∈ l := by
  have := (insertRow_perm r l).mem_iff.mp h
  simpa using this

theorem insertRow_sorted (r : Row) (l : List Row) (h : l.Pairwise rowLe) :
    (insertRow r l).Pairwise rowLe := by
  induction l with
  | nil => simp [insertRow]
  | cons x xs ih =>
    rw [List.pairwise_cons] at h
    unfold insertRow
    by_cases hr : rowLe r x
    · simp only [hr, if_true]
      refine List.Pairwise.cons ?_ (List.Pairwise.cons h.1 h.2)
      intro y hy
      rcases List.mem_cons.mp hy with rfl | hy
      · exact hr
      · exact rowLe_trans hr (h.1 y hy)
    · simp only [hr, if_false]
      refine List.Pairwise.cons ?_ (ih h.2)
      intro y hy
      rcases mem_insertRow hy with rfl | hy
      · rcases rowLe_total y x with hrx | hxr
        · exact absurd hrx hr
        · exact hxr
      · exact h.1 y hy

theorem sortRows_sorted (l : List Row) : (sortRows l).Pairwise rowLe := by
  induction l with
  | nil => simp [sortRows]
  | cons x xs ih => exact insertRow_sorted x (sortRows xs) ih

theorem groupFind_nil (g : Int) : groupFind [] g = [] :=
  rfl

theorem groupFind_cons (g' : Int) (l' : List (String × String))
    (rest : List (Int × List (String × String))) (g : Int) :
    groupFind ((g', l') :: rest) g = if g' = g then l' else groupFind rest g := by
  by_cases h : g' = g
  · rw [if_pos h]
    unfold groupFind
    rw [List.find?_cons_of_pos _ (by simpa using h)]
  · rw [if_neg h]
    unfold groupFind
    rw [List.find?_cons_of_neg _ (by simpa using h)]

theorem groupFind_addRow (acc : List (Int × List (String × String))) (r : Row) (g : Int) :
    groupFind (addRow acc r) g =
      groupFind acc g ++ (if r.geoname_id = g then [(r.url, r.status)] else []) := by
  induction acc with
  | nil =>
    show groupFind [(r.geoname_id, [(r.url, r.status)])] g = _
    rw [groupFind_cons, groupFind_nil]
    by_cases h : r.geoname_id = g <;> simp [h]
  | cons p rest ih =>
    obtain ⟨g', l'⟩ := p
    by_cases hgr : g' = r.geoname_id
    · have h1 : addRow ((g', l') :: rest) r = (g', l' ++ [(r.url, r.status)]) :: rest := by
        simp [addRow, hgr]
      rw [h1, groupFind_cons, groupFind_cons]
      by_cases hg : g' = g
      · have hrg : r.geoname_id = g := hgr.symm.trans hg
        simp [hg, hrg]
      · have hrg : ¬ r.geoname_id = g := fun hc => hg (hgr.trans hc)
        simp [hg, hrg]
    · have h1 : addRow ((g', l') :: rest) r = (g', l') :: addRow rest r := by
        simp [addRow, hgr]
      rw [h1, groupFind_cons, groupFind_cons]
      by_cases hg : g' = g
      · have hrg : ¬ r.geoname_id = g := fun hc => hgr (by rw [hg, hc])
        simp [hg, hrg]
      · simp [hg, ih]

theorem groupFind_foldl (rows : List Row) (acc : List (Int × List (String × String))) (g : Int) :
    groupFind (rows.foldl addRow acc) g =
      groupFind acc g ++
        (rows.filter (fun r => r.geoname_id == g)).map (fun r => (r.url, r.status)) := by
  induction rows generalizing acc with
  | nil => simp
  | cons r rows ih =>
    rw [List.foldl_cons, ih, groupFind_addRow]
    by_cases h : r.geoname_id = g <;> simp [h, List.filter_cons]

theorem addRow_keys (acc : List (Int × List (String × String))) (r : Row) :
    (addRow acc r).map Prod.fst =
      if acc.any (fun p => p.1 == r.geoname_id) then acc.map Prod.fst
      else acc.map Prod.fst ++ [r.geoname_id] := by
  induction acc with
  | nil => simp [addRow]
  | cons p rest ih =>
    obtain ⟨g', l'⟩ := p
    by_cases hgr : g' = r.geoname_id
    · simp [addRow, hgr]
    · have h1 : addRow ((g', l') :: rest) r = (g', l') :: addRow rest r := by
        simp [addRow, hgr]
      rw [h1]
      by_cases hany : rest.any (fun p => p.1 == r.geoname_id) = true
      · simp [List.any_cons, hgr, hany, ih]
      · simp [List.any_cons, hgr, hany, ih]

theorem addRow_keys_nodup (acc : List (Int × List (String × String))) (r : Row)
    (h : (acc.map Prod.fst).Nodup) : ((addRow acc r).map Prod.fst).Nodup := by
  rw [addRow_keys]
  by_cases hany : acc.any (fun p => p.1 == r.geoname_id)
  · simpa [hany] using h
  · simp only [hany, if_false, Bool.false_eq_true]
    rw [List.nodup_append]
    refine ⟨h, List.nodup_singleton _, ?_⟩
    intro a ha
    simp only [List.mem_singleton]
    intro hae
    subst hae
    rw [Bool.not_eq_true, List.any_eq_false] at hany
    obtain ⟨p, hp, hpe⟩ := List.mem_map.mp ha
    exact hany p hp (by simp [hpe])

theorem groupRows_keys_nodup (rows : List Row) :
    ((groupRows rows).map Prod.fst).Nodup := by
  suffices h : ∀ acc : List (Int × List (String × String)), (acc.map Prod.fst).Nodup →
      ((rows.foldl addRow acc).map Prod.fst).Nodup by
    exact h [] (by simp)
  induction rows with
  | nil => intro acc hacc; simpa using hacc
  | cons r rows ih =>
    intro acc hacc
    exact ih (addRow acc r) (addRow_keys_nodup acc r hacc)

theorem mem_groupFind {m : List (Int × List (String × String))}
    (hnd : (m.map Prod.fst).Nodup) {g : Int} {l : List (String × String)}
    (h : (g, l) ∈ m) : groupFind m g = l := by
  induction m with
  | nil => simp at h
  | cons p rest ih =>
    obtain ⟨g', l'⟩ := p
    rw [List.map_cons, List.nodup_cons] at hnd
    rcases List.mem_cons.mp h with heq | hmem
    · injection heq with hg hl
      rw [groupFind_cons, if_pos hg.symm]
      exact hl.symm
    · have hgk : g ∈ rest.map Prod.fst := List.mem_map.mpr ⟨(g, l), hmem, rfl⟩
      have hne : ¬ g' = g := fun hc => hnd.1 (hc ▸ hgk)
      rw [groupFind_cons, if_neg hne]
      exact ih hnd.2 hmem

theorem ungroup_cons (p : Int × List (String × String))
    (m : List (Int × List (String × String))) :
    ungroup (p :: m) = p.2.map (fun q => (p.1, q.1, q.2)) ++ ungroup m := by
  simp [ungroup]

theorem ungroup_addRow (acc : List (Int × List (String × String))) (r : Row) :
    (ungroup (addRow acc r)).Perm (ungroup acc ++ [rowTriple r]) := by
  induction acc with
  | nil => simp [addRow, ungroup, rowTriple]
  | cons p rest ih =>
    obtain ⟨g', l'⟩ := p
    by_cases hgr : g' = r.geoname_id
    · show (ungroup (addRow ((g', l') :: rest) r)).Perm _
      have h1 : addRow ((g', l') :: rest) r = (g', l' ++ [(r.url, r.status)]) :: rest := by
        simp [addRow, hgr]
      rw [h1, ungroup_cons, ungroup_cons]
      simp only [List.map_append, List.map_cons, List.map_nil]
      have : rowTriple r = (g', r.url, r.status) := by simp [rowTriple, hgr]
      rw [this, List.append_assoc, List.append_assoc]
      exact List.Perm.append_left _ (List.perm_append_comm)
    · have h1 : addRow ((g', l') :: rest) r = (g', l') :: addRow rest r := by
        simp [addRow, hgr]
      rw [h1, ungroup_cons, ungroup_cons, List.append_assoc]
      exact List.Perm.append_left _ ih

theorem ungroup_foldl (rows : List Row) (acc : List (Int × List (String × String))) :
    (ungroup (rows.foldl addRow acc)).Perm (ungroup acc ++ rows.map rowTriple) := by
  induction rows generalizing acc with
  | nil => simp
  | cons r rows ih =>
    rw [List.foldl_cons]
    refine (ih (addRow acc r)).trans ?_
    have h2 := List.Perm.append_right (rows.map rowTriple) (ungroup_addRow acc r)
    refine h2.trans ?_
    rw [List.append_assoc]
    exact List.Perm.refl _

theorem ungroup_groupRows (rows : List Row) :
    (ungroup (groupRows rows)).Perm (rows.map rowTriple) := by
  have h := ungroup_foldl rows []
  simpa [ungroup] using h

theorem countP_eq_zero_of_not_any {p : Row → Bool} {db : List Row}
    (h : db.any p = false) : db.countP p = 0 := by
  rw [List.countP_eq_zero]
  intro a ha
  simp only [List.any_eq_false] at h
  exact fun hc => h a ha hc

/-- C3: `enqueue` is idempotent — after a successful first
`add_city_restaurant (city_id, url)`, a second call with the same `url`
returns `False` (not an error) and leaves the store unchanged, with exactly
one row carrying that `url`, regardless of the `geoname_id` or `status`
supplied the second time. -/
theorem enqueue_idempotent (db : List Row) (g g' : Int) (u s s' : String)
    (h : (add_city_restaurant none db g u s).2 = true) :
    add_city_restaurant none (add_city_restaurant none db g u s).1 g' u s' =
      ((add_city_restaurant none db g u s).1, false) ∧
    ((add_city_restaurant none db g u s).1).countP (fun r => r.url == u) = 1 := by
  by_cases hany : db.any (fun r => r.url == u) = true
  · simp [add_city_restaurant, insertAttempt, sqlInsert, hany] at h
  · rw [Bool.not_eq_true] at hany
    have hdb1 : (add_city_restaurant none db g u s).1 = db ++ [⟨g, u, s⟩] := by
      simp [add_city_restaurant, insertAttempt, sqlInsert, hany]
    have hany1 : (db ++ [(⟨g, u, s⟩ : Row)]).any (fun r => r.url == u) = true := by
      simp
    constructor
    · rw [hdb1]
      simp [add_city_restaurant, insertAttempt, sqlInsert, hany1]
    · rw [hdb1, List.countP_append, countP_eq_zero_of_not_any hany]
      simp [List.countP_cons]

/-- Witness for C3 at a concrete store. -/
theorem enqueue_idempotent_witness :
    add_city_restaurant none (add_city_restaurant none [] 5 "u1" "pending").1 7 "u1" "done" =
      ((add_city_restaurant none [] 5 "u1" "pending").1, false) ∧
    ((add_city_restaurant none [] 5 "u1" "pending").1).countP (fun r => r.url == "u1") = 1 :=
  enqueue_idempotent [] 5 7 "u1" "pending" "done" (by decide)

/-- C4 counterexample: with a store that is busy on the first attempt and
free afterwards, the code's writer (`add_city_restaurant`) abandons after a
single attempt and reports failure, while the claimed
5-attempt/100ms-doubling backoff policy would have succeeded on its second
attempt after sleeping 100ms. -/
theorem busy_writer_counterexample :
    (add_city_restaurant_run (fun k => k == 0) [] 1 "u" "pending").1.2 = false ∧
    (add_city_restaurant_run (fun k => k == 0) [] 1 "u" "pending").2 = 1 ∧
    (addRetrySpec (fun k => k == 0) [] 1 "u" "pending").1.2 = true ∧
    (addRetrySpec (fun k => k == 0) [] 1 "u" "pending").2 = [100] := by
  decide

/-- C4 amended: a Work-Queue writer performs no retry at all on a transient
resource-busy condition — the single attempt's failure is caught and the
operation is abandoned and reported as failed (`False`) to the caller, never
silently dropped, with the store unchanged. -/
theorem busy_writer_no_retry (busy : Nat → Bool) (db : List Row) (g : Int) (u s : String)
    (h : busy 0 = true) :
    add_city_restaurant_run busy db g u s = ((db, false), 1) := by
  simp [add_city_restaurant_run, h]

/-- Witness for the amended C4 at a concrete busy store. -/
theorem busy_writer_no_retry_witness :
    add_city_restaurant_run (fun _ => true) [] 3 "u" "pending" = (([], false), 1) :=
  busy_writer_no_retry (fun _ => true) [] 3 "u" "pending" rfl

/-- C8: `remove_city_restaurant_url` on an absent URL returns `False` and
leaves the store unchanged; on a present URL it returns `True`, deletes
exactly the rows with that URL, and leaves every other row (and their order)
unchanged. -/
theorem remove_frame (db : List Row) (u : String) :
    ((∀ r ∈ db, r.url ≠ u) → remove_city_restaurant_url none db u = (db, false)) ∧
    ((∃ r ∈ db, r.url = u) →
      (remove_city_restaurant_url none db u).2 = true ∧
      (remove_city_restaurant_url none db u).1 = db.filter (fun r => !(r.url == u))) := by
  constructor
  · intro habs
    have hz : db.countP (fun r => r.url == u) = 0 := by
      rw [List.countP_eq_zero]
      intro a ha
      simp only [beq_iff_eq]
      exact habs a ha
    have hf : db.filter (fun r => !(r.url == u)) = db := by
      rw [List.filter_eq_self]
      intro a ha
      simp only [Bool.not_eq_true', beq_eq_false_iff_ne]
      exact habs a ha
    simp [remove_city_restaurant_url, hz, hf]
  · intro ⟨r, hr, hru⟩
    have hp : 0 < db.countP (fun r => r.url == u) := by
      rw [List.countP_pos_iff]
      exact ⟨r, hr, by simp [hru]⟩
    simp [remove_city_restaurant_url, hp]

/-- Witness for C8 at a concrete store, both branches. -/
theorem remove_frame_witness :
    remove_city_restaurant_url none [⟨1, "a", "pending"⟩, ⟨2, "b", "pending"⟩] "c" =
      ([⟨1, "a", "pending"⟩, ⟨2, "b", "pending"⟩], false) ∧
    (remove_city_restaurant_url none [⟨1, "a", "pending"⟩, ⟨2, "b", "pending"⟩] "a").2 = true ∧
    (remove_city_restaurant_url none [⟨1, "a", "pending"⟩, ⟨2, "b", "pending"⟩] "a").1 =
      [⟨2, "b", "pending"⟩] := by
  refine ⟨(remove_frame _ "c").1 (by decide), ?_⟩
  have h := (remove_frame [⟨1, "a", "pending"⟩, ⟨2, "b", "pending"⟩] "a").2
    ⟨⟨1, "a", "pending"⟩, by simp⟩
  exact ⟨h.1, by rw [h.2]; rfl⟩

/-- C9: `update_city_restaurant` returns `False` and leaves the store
unchanged when neither optional field is supplied, and likewise when no row
with the given URL exists; in neither case does it write anything. -/
theorem update_noop (db : List Row) (u : String) (g? : Option Int) (s? : Option String) :
    (g? = none ∧ s? = none → update_city_restaurant none db u g? s? = (db, false)) ∧
    ((∀ r ∈ db, r.url ≠ u) → update_city_restaurant none db u g? s? = (db, false)) := by
  constructor
  · intro ⟨hg, hs⟩
    simp [update_city_restaurant, hg, hs]
  · intro habs
    have hz : db.countP (fun r => r.url == u) = 0 := by
      rw [List.countP_eq_zero]
      intro a ha
      simp only [beq_iff_eq]
      exact habs a ha
    by_cases hns : g?.isNone && s?.isNone
    · simp [update_city_restaurant, hns]
    · simp [update_city_restaurant, hns, hz]

/-- Witness for C9 at a concrete store, both branches. -/
theorem update_noop_witness :
    update_city_restaurant none [⟨1, "a", "pending"⟩] "a" none none =
      ([⟨1, "a", "pending"⟩], false) ∧
    update_city_restaurant none [⟨1, "a", "pending"⟩] "b" (some 2) (some "done") =
      ([⟨1, "a", "pending"⟩], false) :=
  ⟨(update_noop [⟨1, "a", "pending"⟩] "a" none none).1 ⟨rfl, rfl⟩,
   (update_noop [⟨1, "a", "pending"⟩] "b" (some 2) (some "done")).2 (by decide)⟩

/-- C10: every store operation is total toward its caller — when the
underlying storage raises any internal error, the `except` handlers convert
it into the operation's failure value (`False` for the boolean operations,
the empty mapping for the listing operation) with the store unchanged,
instead of propagating the exception. -/
theorem store_ops_total_on_error (e : DbErr) (db : List Row) (g : Int) (u s : String)
    (g? : Option Int) (s? : Option String) (ids : List Int) (st : Option String) :
    add_city_restaurant (some e) db g u s = (db, false) ∧
    update_city_restaurant (some e) db u g? s? = (db, false) ∧
    get_city_restaurant_urls_with_status (some e) db ids st = [] ∧
    remove_city_restaurant_url (some e) db u = (db, false) := by
  refine ⟨rfl, ?_, ?_, rfl⟩
  · by_cases hns : g?.isNone && s?.isNone
    · simp [update_city_restaurant, hns]
    · simp [update_city_restaurant, hns]
  · by_cases hids : ids.isEmpty
    · simp [get_city_restaurant_urls_with_status, hids]
    · simp [get_city_restaurant_urls_with_status, hids]

set_option maxRecDepth 8000 in
/-- C2 counterexample: for a city with geo id 60763 and 65 results the
generator does return ceil(65/30) = 3 URLs, but the first URL does carry an
offset parameter — the code emits `&offset=0` on the first page
(`2_create_links_in_db.py` line 218), contradicting "the first URL has no
offset parameter". -/
theorem urlgen_first_offset_counterexample :
    hasOffsetParam ((generate_restaurant_urls (some 60763) 65).headD "") = true ∧
    (generate_restaurant_urls (some 60763) 65).length = 3 := by
  decide

/-- C2 amended: for every city with a truthy geo id and result count R > 0
the generator returns exactly ceil(R/30) URLs, where the i-th URL (0-based)
carries the offset parameter `&offset=30*i` — in particular the first URL
carries `&offset=0` rather than omitting the parameter; for a falsy geo id
or R <= 0 it returns the empty list. -/
theorem urlgen_amended (g R : Int) :
    (g ≠ 0 → 0 < R →
      (generate_restaurant_urls (some g) R).length = (R.toNat + 29) / 30 ∧
      ∀ i, i < (generate_restaurant_urls (some g) R).length →
        (generate_restaurant_urls (some g) R)[i]? =
          some (baseUrl g ++ ("&offset=" ++ toString (30 * i)))) ∧
    (g = 0 ∨ R ≤ 0 → generate_restaurant_urls (some g) R = []) ∧
    generate_restaurant_urls none R = [] := by
  refine ⟨?_, ?_, rfl⟩
  · intro hg hR
    have hfal : (g == 0) = false := by simp [hg]
    have hle : decide (R ≤ 0) = false := by simp; omega
    have hurls : generate_restaurant_urls (some g) R =
        (baseUrl g ++ "&offset=0") ::
          (List.range (R.toNat / 30 + (if R.toNat % 30 > 0 then 1 else 0) - 1)).map
            (fun i => baseUrl g ++ "&offset=" ++ toString ((i + 1) * 30)) := by
      simp [generate_restaurant_urls, hfal, hle]
    constructor
    · rw [hurls]
      simp only [List.length_cons, List.length_map, List.length_range]
      by_cases hm : R.toNat % 30 > 0 <;> simp only [hm, if_true, if_pos, if_neg, gt_iff_lt,
        lt_irrefl, if_false] <;> omega
    · intro i hi
      rw [hurls] at hi ⊢
      match i with
      | 0 =>
        simp only [List.getElem?_cons_zero, Option.some.injEq]
        rw [show ("&offset=0" : String) = "&offset=" ++ toString (30 * 0) from by decide]
      | j + 1 =>
        simp only [List.length_cons, List.length_map, List.length_range] at hi
        have hj : j < R.toNat / 30 + (if R.toNat % 30 > 0 then 1 else 0) - 1 := by omega
        simp only [List.getElem?_cons_succ, List.getElem?_map]
        rw [List.getElem?_eq_getElem (by simpa using hj), List.getElem_range]
        simp only [Option.map_some', Option.some.injEq]
        rw [String.append_assoc, Nat.mul_comm]
  · intro h01
    rcases h01 with h | h
    · simp [generate_restaurant_urls, h]
    · have hle : decide (R ≤ 0) = true := by simpa using h
      simp [generate_restaurant_urls, hle]

theorem processItem_fields (expected : List String) (it : ListItem) (st : St) :
    (processItem expected it st).found = st.found ∧
    (processItem expected it st).shouldRemove = st.shouldRemove := by
  unfold processItem
  split
  · exact ⟨rfl, rfl⟩
  · split
    · exact ⟨rfl, rfl⟩
    · split
      · exact ⟨rfl, rfl⟩
      · exact ⟨rfl, rfl⟩


theorem processItems_fields (expected : List String) (l : List ListItem) (st : St) :
    (processItems expected l st).found = st.found ∧
    (processItems expected l st).shouldRemove = st.shouldRemove := by
  induction l generalizing st with
  | nil => exact ⟨rfl, rfl⟩
  | cons it l ih =>
    have h1 := processItem_fields expected it st
    have h2 := ih (processItem expected it st)
    exact ⟨h2.1.trans h1.1, h2.2.trans h1.2⟩

theorem processScript_shouldRemove (expected : List String) (sc : List ListItem) (st : St)
    (h : st.shouldRemove = false) : (processScript expected sc st).shouldRemove = false := by
  unfold processScript
  split
  · exact h
  · exact (processItems_fields expected sc _).2

theorem processScript_of_found_false (expected : List String) (sc : List ListItem) (st : St)
    (h : (processScript expected sc st).found = false) :
    processScript expected sc st = st ∧ st.found = false := by
  unfold processScript at h ⊢
  by_cases he : sc.isEmpty
  · simp only [he, if_true]
    simpa [he] using h
  · exfalso
    simp only [he, Bool.false_eq_true, if_false] at h
    rw [(processItems_fields expected sc _).1] at h
    simp at h

theorem processScripts_shouldRemove (expected : List String) (scs : List (List ListItem))
    (st : St) (h : st.shouldRemove = false) :
    (processScripts expected scs st).shouldRemove = false := by
  induction scs generalizing st with
  | nil => exact h
  | cons sc scs ih => exact ih _ (processScript_shouldRemove expected sc st h)

theorem processScripts_of_found_false (expected : List String) (scs : List (List ListItem))
    (st : St) (h : (processScripts expected scs st).found = false) :
    processScripts expected scs st = st ∧ st.found = false := by
  induction scs generalizing st with
  | nil => exact ⟨rfl, h⟩
  | cons sc scs ih =>
    have hstep : processScripts expected (sc :: scs) st =
        processScripts expected scs (processScript expected sc st) := rfl
    rw [hstep] at h ⊢
    obtain ⟨h1, h2⟩ := ih _ h
    obtain ⟨h3, h4⟩ := processScript_of_found_false expected sc st h2
    exact ⟨h1.trans h3, h4⟩

theorem body_inv (expected : List String) (k : Nat) (fo : FetchOut) (st : St)
    (hsr : st.shouldRemove = false) (hsucc : st.succ = 0) (hfound : st.found = false) :
    ∀ st' fo', (body expected k fo st = .halt st' fo' ∨ body expected k fo st = .step st' fo') →
      st'.shouldRemove = false ∧ (st'.found = false → st'.succ = 0) := by
  intro st' fo' hbody
  cases fo with
  | exn => simp [body] at hbody
  | noResp =>
    simp only [body] at hbody
    rcases hbody with hbody | hbody
    · simp at hbody
    · injection hbody with h1 h2
      subst h1
      exact ⟨hsr, fun _ => hsucc⟩
  | resp p =>
    by_cases herr : p.err = true
    · simp only [body, herr, if_true] at hbody
      rcases hbody with hbody | hbody
      · simp at hbody
      · injection hbody with h1 h2
        subst h1
        exact ⟨hsr, fun _ => hsucc⟩
    · have hsrA : (processScripts expected (p.otherScripts.getD []) st).shouldRemove = false :=
        processScripts_shouldRemove expected _ st hsr
      by_cases hA : (processScripts expected (p.otherScripts.getD []) st).found = true
      · simp only [body, herr, Bool.false_eq_true, if_false, hA, if_true] at hbody
        rcases hbody with hbody | hbody
        · simp at hbody
        · injection hbody with h1 h2
          subst h1
          exact ⟨hsrA, fun hc => absurd hA (by simp [hc])⟩
      · have hAf : (processScripts expected (p.otherScripts.getD []) st).found = false := by
          simpa using hA
        obtain ⟨hid, -⟩ := processScripts_of_found_false expected _ st hAf
        simp only [body, herr, Bool.false_eq_true, if_false, hAf, hid, hfound] at hbody
        by_cases hc : detect_captcha p = true
        · simp only [hc, if_true] at hbody
          rcases hbody with hbody | hbody
          · injection hbody with h1 h2
            subst h1
            exact ⟨hsr, fun _ => hsucc⟩
          · simp at hbody
        · simp only [hc, Bool.false_eq_true, if_false] at hbody
          by_cases hv : validate_response_size p = true
          · simp only [hv, Bool.not_true, Bool.false_eq_true, if_false] at hbody
            unfold statusCheck at hbody
            rcases hst : p.status with _ | code
            · rw [hst] at hbody
              rcases hbody with hbody | hbody
              · simp at hbody
              · injection hbody with h1 h2
                subst h1
                exact ⟨hsr, fun _ => hsucc⟩
            · rw [hst] at hbody
              by_cases h429 : (code == 429) = true
              · simp only [h429, if_true] at hbody
                rcases hbody with hbody | hbody
                · injection hbody with h1 h2
                  subst h1
                  exact ⟨hsr, fun _ => hsucc⟩
                · simp at hbody
              · simp only [h429, Bool.false_eq_true, if_false] at hbody
                rcases hbody with hbody | hbody
                · simp at hbody
                · injection hbody with h1 h2
                  subst h1
                  exact ⟨hsr, fun _ => hsucc⟩
          · have hv2 : validate_response_size p = false := by simpa using hv
            simp only [hv2, Bool.not_false, if_true] at hbody
            by_cases hk : k < 3
            · simp only [hk, if_true] at hbody
              rcases hbody with hbody | hbody
              · simp at hbody
              · injection hbody with h1 h2
                subst h1
                exact ⟨hsr, fun _ => hsucc⟩
            · simp only [hk, if_false] at hbody
              unfold statusCheck at hbody
              rcases hst : p.status with _ | code
              · rw [hst] at hbody
                rcases hbody with hbody | hbody
                · simp at hbody
                · injection hbody with h1 h2
                  subst h1
                  exact ⟨hsr, fun _ => hsucc⟩
              · rw [hst] at hbody
                by_cases h429 : (code == 429) = true
                · simp only [h429, if_true] at hbody
                  rcases hbody with hbody | hbody
                  · injection hbody with h1 h2
                    subst h1
                    exact ⟨hsr, fun _ => hsucc⟩
                  · simp at hbody
                · simp only [h429, Bool.false_eq_true, if_false] at hbody
                  rcases hbody with hbody | hbody
                  · simp at hbody
                  · injection hbody with h1 h2
                    subst h1
                    exact ⟨hsr, fun _ => hsucc⟩

theorem runLoop_inv (fetch : Nat → FetchOut) (expected : List String) :
    ∀ (fuel k : Nat) (st : St) (last : Option FetchOut),
      st.shouldRemove = false → (st.found = false → st.succ = 0) →
      ((runLoop fetch expected fuel k st last).st.shouldRemove = false ∧
       ((runLoop fetch expected fuel k st last).st.found = false →
         (runLoop fetch expected fuel k st last).st.succ = 0) ∧
       ((runLoop fetch expected fuel k st last).raised = true →
         (runLoop fetch expected fuel k st last).st.found = false)) := by
  intro fuel
  induction fuel with
  | zero =>
    intro k st last hsr hsucc
    simp only [runLoop]
    exact ⟨hsr, hsucc, by simp⟩
  | succ fuel ih =>
    intro k st last hsr hsucc
    by_cases hf : st.found = true
    · simp only [runLoop, hf, if_true]
      refine ⟨hsr, ?_, ?_⟩ <;> simp
    · have hfe : st.found = false := by simpa using hf
      have hs0 : st.succ = 0 := hsucc hfe
      rcases hb : body expected (k + 1) (fetch (k + 1)) st with _ | ⟨st2, fo2⟩ | ⟨st2, fo2⟩
      · simp only [runLoop, hfe, Bool.false_eq_true, if_false, hb]
        refine ⟨hsr, ?_, ?_⟩ <;> simp [hs0, hfe]
      · have h' := body_inv expected (k + 1) (fetch (k + 1)) st hsr hs0 hfe st2 fo2 (Or.inl hb)
        simp only [runLoop, hfe, Bool.false_eq_true, if_false, hb]
        exact ⟨h'.1, h'.2, by simp⟩
      · have h' := body_inv expected (k + 1) (fetch (k + 1)) st hsr hs0 hfe st2 fo2 (Or.inr hb)
        have hrec := ih (k + 1) st2 (some fo2) h'.1 h'.2
        simp only [runLoop, hfe, Bool.false_eq_true, if_false, hb]
        exact hrec

theorem finalize_fields (st : St) (last : Option FetchOut) :
    (finalize st last).succ = st.succ ∧ (finalize st last).found = st.found := by
  unfold finalize
  split
  · exact ⟨rfl, rfl⟩
  · split <;> first
    | exact ⟨rfl, rfl⟩
    | (split
       · split
         · split <;> exact ⟨rfl, rfl⟩
         · exact ⟨rfl, rfl⟩
       · exact ⟨rfl, rfl⟩)

/-- C1: a processed URL is removed from the work queue iff at least one
parsed record from it was successfully forwarded to the Record Sink, or the
processing outcome is a positively confirmed empty page (no exception, zero
items, no bot-challenge flagged, no undersized payload flagged, and a final
response with no envelope error, nominal 200 status, size at or above the
10KB floor, and the expected JSON-LD markers present); contrapositively,
every ambiguous outcome (captcha, undersized payload, missing markers,
rate-limiting, network error or exception) retains the URL. -/
theorem url_removed_iff (fetch : Nat → FetchOut) (expected : List String) :
    urlRemoved fetch expected =
      (forwardedSome fetch expected || specConfirmedEmpty fetch expected) := by
  have hinv := runLoop_inv fetch expected 3 0 initSt none rfl (fun _ => rfl)
  unfold urlRemoved forwardedSome specConfirmedEmpty process_single_url runUrl
  unfold runUrl at hinv
  set lo := runLoop fetch expected 3 0 initSt none with hlo
  by_cases hr : lo.raised = true
  · have hfe : lo.st.found = false := hinv.2.2 hr
    have hs0 : lo.st.succ = 0 := hinv.2.1 hfe
    simp [hr, hfe, hs0]
  · have hrf : lo.raised = false := by simpa using hr
    have hsuccf : (finalize lo.st lo.last).succ = lo.st.succ := (finalize_fields _ _).1
    have hfoundf : (finalize lo.st lo.last).found = lo.st.found := (finalize_fields _ _).2
    by_cases hf : lo.st.found = true
    · have hfin : finalize lo.st lo.last = lo.st := by
        unfold finalize
        simp [hf]
      simp [hrf, hfin, hf, hinv.1]
    · have hfe : lo.st.found = false := by simpa using hf
      have hs0 : lo.st.succ = 0 := hinv.2.1 hfe
      simp only [hrf, Bool.false_eq_true, if_false, hsuccf, hfoundf, hfe, hs0,
        Bool.false_and, Bool.false_or, Bool.not_false, Bool.true_and, Nat.lt_irrefl,
        Bool.false_eq_true]
      cases hl : lo.last with
      | none =>
        have hfin : (finalize lo.st none).shouldRemove = false := by
          unfold finalize
          simp [hfe]
        simp [hfin]
      | some fo =>
        cases fo with
        | exn =>
          have hfin : (finalize lo.st (some .exn)).shouldRemove = false := by
            unfold finalize
            simp [hfe]
          simp [hfin]
        | noResp =>
          have hfin : (finalize lo.st (some .noResp)).shouldRemove = false := by
            unfold finalize
            simp [hfe]
          simp [hfin]
        | resp p =>
          unfold finalize
          simp only [hfe, Bool.false_eq_true, if_false]
          by_cases h1 : p.err = true <;> by_cases h2 : lo.st.captcha = true <;>
            by_cases h3 : lo.st.tooSmall = true <;>
            by_cases h4 : (p.status.getD 200 == 200) = true <;>
            by_cases h5 : validate_response_size p = true <;>
            by_cases h6 : p.otherScripts.isSome = true <;>
            simp [h1, h2, h3, h4, h5, h6]

/-- C7: for every id set and every status of the spec's status enumeration,
the listing operation returns a mapping (unique keys) whose entries are
exactly the store rows with a listed `geoname_id` and the requested status —
stated as a permutation between the flattened mapping and the filtered
store — and each city's list is ordered by `url` (lexicographic `String`
order); determinism across runs holds by construction since the operation is
a pure function of the store contents. -/
theorem list_by_status_spec (db : List Row) (ids : List Int) (s : String)
    (hs : s = "pending" ∨ s = "in_progress" ∨ s = "completed") :
    (ungroup (get_city_restaurant_urls_with_status none db ids (some s))).Perm
      ((db.filter (fun r => ids.contains r.geoname_id && r.status == s)).map rowTriple) ∧
    ((get_city_restaurant_urls_with_status none db ids (some s)).map Prod.fst).Nodup ∧
    (∀ g l, (g, l) ∈ get_city_restaurant_urls_with_status none db ids (some s) →
      List.Pairwise (fun a b : String × String => a.1 ≤ b.1) l) := by
  have hsne : (s == "") = false := by
    rcases hs with rfl | rfl | rfl <;> decide
  have hact : activeStatus (some s) = some s := by
    simp [activeStatus, hsne]
  by_cases hids : ids.isEmpty
  · have hnil : ids = [] := List.isEmpty_iff.mp hids
    subst hnil
    refine ⟨?_, ?_, ?_⟩
    · simp [get_city_restaurant_urls_with_status, ungroup]
    · simp [get_city_restaurant_urls_with_status]
    · intro g l hmem
      simp [get_city_restaurant_urls_with_status] at hmem
  · have hfn : rowPred ids (activeStatus (some s)) =
        fun r => ids.contains r.geoname_id && r.status == s := by
      rw [hact]
      funext r
      rfl
    have hres : get_city_restaurant_urls_with_status none db ids (some s) =
        groupRows (sortRows (db.filter (fun r => ids.contains r.geoname_id && r.status == s))) := by
      rw [get_city_restaurant_urls_with_status, if_neg hids, hfn]
    rw [hres]
    set f : Row → Bool := fun r => ids.contains r.geoname_id && r.status == s with hf
    refine ⟨?_, groupRows_keys_nodup _, ?_⟩
    · exact (ungroup_groupRows _).trans (List.Perm.map rowTriple (sortRows_perm _))
    · intro g l hmem
      have hl : groupFind (groupRows (sortRows (db.filter f))) g = l :=
        mem_groupFind (groupRows_keys_nodup _) hmem
      rw [groupRows, groupFind_foldl, groupFind_nil, List.nil_append] at hl
      have hsorted : (sortRows (db.filter f)).Pairwise rowLe := sortRows_sorted _
      have hfil : ((sortRows (db.filter f)).filter
          (fun r => r.geoname_id == g)).Pairwise rowLe :=
        hsorted.filter _
      have hurl : ((sortRows (db.filter f)).filter
          (fun r => r.geoname_id == g)).Pairwise (fun a b => a.url ≤ b.url) := by
        refine hfil.imp_of_mem ?_
        intro a b ha hb hab
        have hag : a.geoname_id = g := by
          have := (List.mem_filter.mp ha).2
          simpa using this
        have hbg : b.geoname_id = g := by
          have := (List.mem_filter.mp hb).2
          simpa using this
        rcases hab with h | ⟨_, h⟩
        · rw [hag, hbg] at h
          exact absurd h (lt_irrefl g)
        · exact h
      rw [← hl, List.pairwise_map]
      exact hurl

/-- Witness for C7 on a concrete five-row store with ids {1, 2} and status
`pending`. -/
theorem list_by_status_spec_witness :
    (ungroup (get_city_restaurant_urls_with_status none
        [⟨2, "b", "pending"⟩, ⟨1, "z", "pending"⟩, ⟨1, "a", "pending"⟩,
         ⟨1, "m", "done"⟩, ⟨3, "c", "pending"⟩] [1, 2] (some "pending"))).Perm
      (([⟨2, "b", "pending"⟩, ⟨1, "z", "pending"⟩, ⟨1, "a", "pending"⟩,
         ⟨1, "m", "done"⟩, ⟨3, "c", "pending"⟩].filter
          (fun r => [1, 2].contains r.geoname_id && r.status == "pending")).map rowTriple) ∧
    ((get_city_restaurant_urls_with_status none
        [⟨2, "b", "pending"⟩, ⟨1, "z", "pending"⟩, ⟨1, "a", "pending"⟩,
         ⟨1, "m", "done"⟩, ⟨3, "c", "pending"⟩] [1, 2] (some "pending")).map Prod.fst).Nodup :=
  ⟨(list_by_status_spec
      [⟨2, "b", "pending"⟩, ⟨1, "z", "pending"⟩, ⟨1, "a", "pending"⟩,
       ⟨1, "m", "done"⟩, ⟨3, "c", "pending"⟩] [1, 2] "pending" (Or.inl rfl)).1,
   (list_by_status_spec
      [⟨2, "b", "pending"⟩, ⟨1, "z", "pending"⟩, ⟨1, "a", "pending"⟩,
       ⟨1, "m", "done"⟩, ⟨3, "c", "pending"⟩] [1, 2] "pending" (Or.inl rfl)).2.1⟩

/-- C6: when a location allow-list is available and a returned item's parsed
geo identifier does not match it, the item is skipped — nothing is forwarded
to the Record Sink and neither the success nor the failure counter moves, so
the item cannot contribute to a success classification. -/
theorem mismatched_item_skipped (expected : List String) (it : ListItem) (st : St)
    (hne : expected ≠ [])
    (hru : restaurantUrl it ≠ "")
    (hg : containsSub "-g" (restaurantUrl it) = true)
    (hmem : geoPart (restaurantUrl it) ∉ expected) :
    processItem expected it st = st := by
  have h1 : expected.isEmpty = false := by simpa using hne
  have h2 : (restaurantUrl it == "") = false := by simpa using hru
  have hskip : skipItem expected it = true := by
    simp [skipItem, h1, h2, hg, hmem]
  simp [processItem, hskip]

/-- Witness for C6: an item from geo 123 is dropped unchanged when the
allow-list only contains geo 999. -/
theorem mismatched_item_skipped_witness :
    processItem ["999"] ⟨true, "https://t.a/Restaurant_Review-g123-d456", false, false, "", true⟩
      initSt = initSt :=
  mismatched_item_skipped ["999"]
    ⟨true, "https://t.a/Restaurant_Review-g123-d456", false, false, "", true⟩ initSt
    (by decide) (by decide) (by decide) (by decide)

theorem envelope_error_cases {fo : FetchOut} (h : isEnvelopeError fo = true) :
    fo = .noResp ∨ ∃ p, fo = .resp p ∧ p.err = true := by
  cases fo with
  | exn => simp [isEnvelopeError] at h
  | noResp => exact Or.inl rfl
  | resp p => exact Or.inr ⟨p, rfl, h⟩

/-- C5 counterexample: a network failure raised on the first attempt is not
retried — the orchestrator makes exactly one client call (not up to 3), the
exception escapes the retry loop, and the URL falls back to ambiguous
semantics — even though the very same oracle returns a nominal
one-restaurant response on every later attempt (as the fourth conjunct
shows for an oracle that answers that way on every attempt). -/
theorem transient_retry_counterexample :
    (runUrl exnThenGood []).attempts = 1 ∧
    (runUrl exnThenGood []).raised = true ∧
    urlRemoved exnThenGood [] = false ∧
    urlRemoved (fun _ => .resp goodResp) [] = true := by
  decide

/-- C5 amended: only transient errors surfaced in the response envelope
(empty/falsy response or an envelope-level error field) are retried, up to 3
attempts in the same invocation with sleeps of 2·(k−1) seconds before attempt
k, after which the URL keeps ambiguous semantics (it is retained); a network
failure raised as an exception aborts immediately after a single attempt with
no retry, also retaining the URL. -/
theorem transient_retry_amended (fetch : Nat → FetchOut) (expected : List String) :
    ((∀ k, 1 ≤ k → k ≤ 3 → isEnvelopeError (fetch k) = true) →
      (runUrl fetch expected).attempts = 3 ∧ (runUrl fetch expected).sleeps = [2, 4] ∧
      urlRemoved fetch expected = false) ∧
    (fetch 1 = .exn →
      (runUrl fetch expected).attempts = 1 ∧ (runUrl fetch expected).raised = true ∧
      urlRemoved fetch expected = false) := by
  constructor
  · intro h
    obtain e1 | ⟨p1, e1, hp1⟩ := envelope_error_cases (h 1 (by norm_num) (by norm_num)) <;>
    obtain e2 | ⟨p2, e2, hp2⟩ := envelope_error_cases (h 2 (by norm_num) (by norm_num)) <;>
    obtain e3 | ⟨p3, e3, hp3⟩ := envelope_error_cases (h 3 (by norm_num) (by norm_num)) <;>
    simp [runUrl, runLoop, body, urlRemoved, process_single_url, finalize, initSt,
      e1, e2, e3, *]
  · intro h1
    simp [runUrl, runLoop, body, urlRemoved, process_single_url, finalize, initSt, h1]

/-- Witness for the amended C5: the all-noResp oracle exhausts the 3 attempts
with sleeps 2 and 4; the immediately-raising oracle stops after 1 attempt. -/
theorem transient_retry_amended_witness :
    ((runUrl (fun _ => .noResp) []).attempts = 3 ∧
      (runUrl (fun _ => .noResp) []).sleeps = [2, 4] ∧
      urlRemoved (fun _ => .noResp) [] = false) ∧
    ((runUrl (fun _ => .exn) []).attempts = 1 ∧
      (runUrl (fun _ => .exn) []).raised = true ∧
      urlRemoved (fun _ => .exn) [] = false) :=
  ⟨(transient_retry_amended (fun _ => .noResp) []).1 (fun _ _ _ => rfl),
   (transient_retry_amended (fun _ => .exn) []).2 rfl⟩

/-- Witness for the amended C2 at geo id 1 with 65 results. -/
theorem urlgen_amended_witness :
    (generate_restaurant_urls (some 1) 65).length = 3 ∧
    generate_restaurant_urls (some 1) (-4) = [] := by
  have h := urlgen_amended 1 65
  have h2 := urlgen_amended 1 (-4)
  refine ⟨?_, h2.2.1 (Or.inr (by norm_num))⟩
  rw [(h.1 (by norm_num) (by norm_num)).1]
  decide
